import Mathlib

/-!
# Verification of the SMTP state machine in `src/smtp.rs`

Shallow embedding of `StateMachine::handle_smtp` and `StateMachine::legal_recipient`
from `src/smtp.rs` of the `smtp_forward` repository.

Modelling choices:
* Rust strings (`&str`, `String`) are modelled as `List Char`; the inputs the
  machine handles are ASCII, where Rust's Unicode-aware `to_lowercase`,
  `split_whitespace`, `contains`, `ends_with`, `strip_prefix` coincide with the
  ASCII versions defined below.  The lowercased command keyword is packaged as a
  Lean `String` so that dispatch reads like the Rust `match`.
* `handle_smtp(&mut self, raw_msg) -> Result<&[u8]>` becomes a pure function
  `StateMachine → List Char → StateMachine × Except String (List Char)`:
  the returned machine is the post-call value of `self` (on the error paths the
  Rust code never assigns `self.state`, so the machine is returned unchanged),
  and the `Except` carries the response bytes or the error.  Rust interpolates
  the offending state and message into its error strings; the error payload here
  keeps only the fixed message text, which no claim depends on.
* The Rust `match` on `(command.as_str(), state)` is an ordered first-match
  dispatch.  Arms 1-5 (`ehlo`/`helo`/`noop`-family/`rset`/`auth`) depend only on
  the command (plus `Fresh` for the greetings) and are kept in source order as a
  guarded chain.  The remaining arms — (`mail`,Greeted), (`rcpt`,ReceivingRcpt),
  (`data`,ReceivingRcpt), (`quit`,ReceivingData), (`quit`,_), (_,ReceivingData),
  catch-all error — are pairwise disjoint except that (`quit`,ReceivingData)
  precedes both (`quit`,_) and (_,ReceivingData); the state-first regrouping
  below tests `quit` before the data-accumulation fallback, preserving the
  Rust first-match semantics exactly.
-/

/-- Coerces a string literal to the `List Char` representation used throughout. -/
def cs (x : String) : List Char := x.data

/-- Accumulator-passing core of `splitWS`.  The accumulator holds the current
word reversed. -/
def splitWSAux : List Char → List Char → List (List Char)
  | [], acc => if acc.isEmpty then [] else [acc.reverse]
  | c :: rest, acc =>
    if c.isWhitespace then
      if acc.isEmpty then splitWSAux rest []
      else acc.reverse :: splitWSAux rest []
    else splitWSAux rest (c :: acc)

/-- Rust `str::split_whitespace`: whitespace-delimited words, empty words
skipped.  `Char.isWhitespace` covers space, tab, CR and LF, matching the
ASCII fragment of Rust's Unicode definition. -/
def splitWS (l : List Char) : List (List Char) := splitWSAux l []

/-- Rust `str::to_lowercase`, restricted to ASCII (`Char.toLower` lowers
exactly the ASCII uppercase letters). -/
def toLowerStr (l : List Char) : List Char := l.map Char.toLower

/-- Rust `str::strip_prefix`: the remainder of `l` after an initial segment
equal to the first argument, if it has one. -/
def stripPfx : List Char → List Char → Option (List Char)
  | [], l => some l
  | _ :: _, [] => none
  | p :: ps, c :: rest => if c = p then stripPfx ps rest else none

/-- Rust `str::ends_with` for a string pattern, via `List.IsSuffix`. -/
def endsWith (pat l : List Char) : Bool := decide (pat <:+ l)

/-- Rust `str::contains` for a string pattern, via `List.IsInfix`. -/
def containsStr (pat l : List Char) : Bool := decide (pat <:+: l)

/-- `struct Mail` of `src/smtp.rs` (field `from` is renamed `from_`: `from` is a
reserved word in Lean).  `Default` gives empty strings and an empty vector. -/
structure Mail where
  from_ : List Char
  to_ : List (List Char)
  data : List Char
deriving DecidableEq, Repr

/-- `enum State` of `src/smtp.rs`. -/
inductive State where
  | Fresh : State
  | Greeted : State
  | ReceivingRcpt : Mail → State
  | ReceivingData : Mail → State
  | Received : Mail → State
deriving DecidableEq, Repr

/-- `struct StateMachine` of `src/smtp.rs`: the mutable state plus the
EHLO greeting precomputed from the domain by `StateMachine::new`. -/
structure StateMachine where
  state : State
  ehlo_greeting : List Char
deriving DecidableEq, Repr

instance {ε α : Type} [DecidableEq ε] [DecidableEq α] : DecidableEq (Except ε α) :=
  fun a b =>
    match a, b with
    | Except.error e, Except.error f =>
      if h : e = f then Decidable.isTrue (congrArg Except.error h)
      else Decidable.isFalse (fun hc => h (Except.error.inj hc))
    | Except.ok x, Except.ok y =>
      if h : x = y then Decidable.isTrue (congrArg Except.ok h)
      else Decidable.isFalse (fun hc => h (Except.ok.inj hc))
    | Except.error _, Except.ok _ => Decidable.isFalse (fun hc => Except.noConfusion hc)
    | Except.ok _, Except.error _ => Decidable.isFalse (fun hc => Except.noConfusion hc)

/-- Response constant `OH_HAI` (the connect banner; unused by `handle_smtp`). -/
def OH_HAI : List Char := cs "220 edgemail\n"

/-- Response constant `KK`. -/
def KK : List Char := cs "250 Ok\n"

/-- Response constant `AUTH_OK`. -/
def AUTH_OK : List Char := cs "235 Ok\n"

/-- Response constant `SEND_DATA_PLZ`. -/
def SEND_DATA_PLZ : List Char := cs "354 End data with <CR><LF>.<CR><LF>\n"

/-- Response constant `KTHXBYE`. -/
def KTHXBYE : List Char := cs "221 Bye\n"

/-- Response constant `HOLD_YOUR_HORSES`: the empty byte string, the
distinguished "withhold" response. -/
def HOLD_YOUR_HORSES : List Char := []

/-- `StateMachine::new(domain)`: fresh state plus the formatted EHLO greeting. -/
def StateMachine.new (domain : List Char) : StateMachine :=
  { state := State.Fresh
    ehlo_greeting :=
      cs "250-" ++ domain ++ cs " Hello " ++ domain ++ cs "\n250 AUTH PLAIN LOGIN\n" }

/-- `StateMachine::legal_recipient`: lowercase the address, then reject it when
it contains `admin`, `postmaster` or `hostmaster` anywhere. -/
def legal_recipient (to_ : List Char) : Bool :=
  let t := toLowerStr to_
  !containsStr (cs "admin") t && !containsStr (cs "postmaster") t &&
    !containsStr (cs "hostmaster") t

/-- `StateMachine::handle_smtp`: one SMTP command against the current state.
The first whitespace-delimited token, lowercased, is the command; an input with
no token fails (`received empty command`).  Dispatch mirrors the Rust `match`
on `(command, state)` — see the module docstring for the arm regrouping. -/
def handle_smtp (sm : StateMachine) (raw_msg : List Char) :
    StateMachine × Except String (List Char) :=
  match splitWS raw_msg with
  | [] => (sm, Except.error "received empty command")
  | tok :: rest =>
    let command : String := String.mk (toLowerStr tok)
    if command = "ehlo" ∧ sm.state = State.Fresh then
      ({ sm with state := State.Greeted }, Except.ok sm.ehlo_greeting)
    else if command = "helo" ∧ sm.state = State.Fresh then
      ({ sm with state := State.Greeted }, Except.ok KK)
    else if command = "noop" ∨ command = "help" ∨ command = "info" ∨
        command = "vrfy" ∨ command = "expn" then
      (sm, Except.ok KK)
    else if command = "rset" then
      ({ sm with state := State.Fresh }, Except.ok KK)
    else if command = "auth" then
      (sm, Except.ok AUTH_OK)
    else
      match sm.state with
      | State.Greeted =>
        if command = "mail" then
          match rest with
          | [] => (sm, Except.error "received empty MAIL")
          | f :: _ =>
            match stripPfx (cs "FROM:") f with
            | none => (sm, Except.error "received incorrect MAIL")
            | some from_ =>
              ({ sm with state := State.ReceivingRcpt ⟨from_, [], []⟩ },
                Except.ok KK)
        else if command = "quit" then (sm, Except.ok KTHXBYE)
        else (sm, Except.error "Unexpected message received")
      | State.ReceivingRcpt mail =>
        if command = "rcpt" then
          match rest with
          | [] => (sm, Except.error "received empty RCPT")
          | t :: _ =>
            match stripPfx (cs "TO:") t with
            | none => (sm, Except.error "received incorrect RCPT")
            | some to_ =>
              let mail' : Mail :=
                if legal_recipient to_ then { mail with to_ := mail.to_ ++ [to_] }
                else mail
              ({ sm with state := State.ReceivingRcpt mail' }, Except.ok KK)
        else if command = "data" then
          ({ sm with state := State.ReceivingData mail }, Except.ok SEND_DATA_PLZ)
        else if command = "quit" then (sm, Except.ok KTHXBYE)
        else (sm, Except.error "Unexpected message received")
      | State.ReceivingData mail =>
        if command = "quit" then
          ({ sm with state := State.Received mail }, Except.ok KTHXBYE)
        else
          let mail' : Mail := { mail with data := mail.data ++ raw_msg }
          ({ sm with state := State.ReceivingData mail' },
            Except.ok (if endsWith (cs "\r\n.\r\n") raw_msg then KK
                       else HOLD_YOUR_HORSES))
      | _ =>
        if command = "quit" then (sm, Except.ok KTHXBYE)
        else (sm, Except.error "Unexpected message received")

/-- Data-accumulation branch of `handle_smtp`, shared by several claims: in
`ReceivingData`, a line whose first token dispatches to no earlier arm is
appended to the body and acknowledged iff it ends with the terminator. -/
theorem data_branch_eq (g : List Char) (m : Mail) (raw tok : List Char)
    (rest : List (List Char)) (ht : splitWS raw = tok :: rest)
    (hquit : String.mk (toLowerStr tok) ≠ "quit")
    (hnoop : String.mk (toLowerStr tok) ≠ "noop")
    (hhelp : String.mk (toLowerStr tok) ≠ "help")
    (hinfo : String.mk (toLowerStr tok) ≠ "info")
    (hvrfy : String.mk (toLowerStr tok) ≠ "vrfy")
    (hexpn : String.mk (toLowerStr tok) ≠ "expn")
    (hrset : String.mk (toLowerStr tok) ≠ "rset")
    (hauth : String.mk (toLowerStr tok) ≠ "auth") :
    handle_smtp ⟨State.ReceivingData m, g⟩ raw =
      (⟨State.ReceivingData { m with data := m.data ++ raw }, g⟩,
        Except.ok (if endsWith (cs "\r\n.\r\n") raw then KK else HOLD_YOUR_HORSES)) := by
  simp [handle_smtp, ht, hquit, hnoop, hhelp, hinfo, hvrfy, hexpn, hrset, hauth]

/-- Transcription of the spec's §4.1 transition table: the `(command, state)`
pairs for which a behaviour is listed.  `noop`/`help`/`info`/`vrfy`/`expn`,
`rset`, `auth` and `quit` are listed for every state; `ehlo`/`helo` for
`Fresh`; `mail` for `Greeted`; `rcpt` and `data` for `ReceivingRecipients`;
and every command is listed for `ReceivingData` (the data-accumulation row). -/
def listedPair (command : String) (st : State) : Prop :=
  command ∈ (["noop", "help", "info", "vrfy", "expn", "rset", "auth", "quit"] :
      List String) ∨
  ((command = "ehlo" ∨ command = "helo") ∧ st = State.Fresh) ∨
  (command = "mail" ∧ st = State.Greeted) ∨
  ((command = "rcpt" ∨ command = "data") ∧ ∃ m, st = State.ReceivingRcpt m) ∨
  (∃ m, st = State.ReceivingData m)

/-- Any `(command, state)` pair outside the transition table falls through to
the catch-all arm: the error is returned and the machine is unchanged. -/
theorem unlisted_errors (st : State) (g raw tok : List Char)
    (rest : List (List Char)) (ht : splitWS raw = tok :: rest)
    (h : ¬ listedPair (String.mk (toLowerStr tok)) st) :
    handle_smtp ⟨st, g⟩ raw = (⟨st, g⟩, Except.error "Unexpected message received") := by
  have hnoop : String.mk (toLowerStr tok) ≠ "noop" :=
    fun he => h (Or.inl (by simp [he]))
  have hhelp : String.mk (toLowerStr tok) ≠ "help" :=
    fun he => h (Or.inl (by simp [he]))
  have hinfo : String.mk (toLowerStr tok) ≠ "info" :=
    fun he => h (Or.inl (by simp [he]))
  have hvrfy : String.mk (toLowerStr tok) ≠ "vrfy" :=
    fun he => h (Or.inl (by simp [he]))
  have hexpn : String.mk (toLowerStr tok) ≠ "expn" :=
    fun he => h (Or.inl (by simp [he]))
  have hrset : String.mk (toLowerStr tok) ≠ "rset" :=
    fun he => h (Or.inl (by simp [he]))
  have hauth : String.mk (toLowerStr tok) ≠ "auth" :=
    fun he => h (Or.inl (by simp [he]))
  have hquit : String.mk (toLowerStr tok) ≠ "quit" :=
    fun he => h (Or.inl (by simp [he]))
  cases st with
  | Fresh =>
    have hehlo : String.mk (toLowerStr tok) ≠ "ehlo" :=
      fun he => h (Or.inr (Or.inl ⟨Or.inl he, rfl⟩))
    have hhelo : String.mk (toLowerStr tok) ≠ "helo" :=
      fun he => h (Or.inr (Or.inl ⟨Or.inr he, rfl⟩))
    simp [handle_smtp, ht, hnoop, hhelp, hinfo, hvrfy, hexpn, hrset, hauth,
      hquit, hehlo, hhelo]
  | Greeted =>
    have hmail : String.mk (toLowerStr tok) ≠ "mail" :=
      fun he => h (Or.inr (Or.inr (Or.inl ⟨he, rfl⟩)))
    simp [handle_smtp, ht, hnoop, hhelp, hinfo, hvrfy, hexpn, hrset, hauth,
      hquit, hmail]
  | ReceivingRcpt m =>
    have hrcpt : String.mk (toLowerStr tok) ≠ "rcpt" :=
      fun he => h (Or.inr (Or.inr (Or.inr (Or.inl ⟨Or.inl he, m, rfl⟩))))
    have hdata : String.mk (toLowerStr tok) ≠ "data" :=
      fun he => h (Or.inr (Or.inr (Or.inr (Or.inl ⟨Or.inr he, m, rfl⟩))))
    simp [handle_smtp, ht, hnoop, hhelp, hinfo, hvrfy, hexpn, hrset, hauth,
      hquit, hrcpt, hdata]
  | ReceivingData m =>
    exact absurd (Or.inr (Or.inr (Or.inr (Or.inr ⟨m, rfl⟩)))) h
  | Received m =>
    simp [handle_smtp, ht, hnoop, hhelp, hinfo, hvrfy, hexpn, hrset, hauth,
      hquit]

/-- C1 counterexample: in `ReceivingData` the commands `NOOP`/`HELP`/`INFO`/
`VRFY`/`EXPN`, `RSET` and `AUTH` — none of which has first token `QUIT` — are
intercepted by earlier match arms: nothing is appended to `rawBody`, `RSET`
even leaves `ReceivingData`, and a line with no token at all fails.  This
refutes the claim that every non-`QUIT` line is appended with the machine
staying in `ReceivingData` and the call succeeding. -/
theorem C1_counterexample :
    (handle_smtp ⟨State.ReceivingData ⟨cs "a@b.com", [], cs "x"⟩, []⟩ (cs "RSET") =
      (⟨State.Fresh, []⟩, Except.ok KK)) ∧
    ((handle_smtp ⟨State.ReceivingData ⟨cs "a@b.com", [], cs "x"⟩, []⟩
        (cs "RSET")).1.state ≠
      State.ReceivingData ⟨cs "a@b.com", [], cs "x" ++ cs "RSET"⟩) ∧
    (handle_smtp ⟨State.ReceivingData ⟨cs "a@b.com", [], cs "x"⟩, []⟩ (cs "NOOP") =
      (⟨State.ReceivingData ⟨cs "a@b.com", [], cs "x"⟩, []⟩, Except.ok KK)) ∧
    ((handle_smtp ⟨State.ReceivingData ⟨cs "a@b.com", [], cs "x"⟩, []⟩
        (cs "NOOP")).1.state ≠
      State.ReceivingData ⟨cs "a@b.com", [], cs "x" ++ cs "NOOP"⟩) ∧
    (handle_smtp ⟨State.ReceivingData ⟨cs "a@b.com", [], cs "x"⟩, []⟩ (cs "HELP") =
      (⟨State.ReceivingData ⟨cs "a@b.com", [], cs "x"⟩, []⟩, Except.ok KK)) ∧
    (handle_smtp ⟨State.ReceivingData ⟨cs "a@b.com", [], cs "x"⟩, []⟩ (cs "INFO") =
      (⟨State.ReceivingData ⟨cs "a@b.com", [], cs "x"⟩, []⟩, Except.ok KK)) ∧
    (handle_smtp ⟨State.ReceivingData ⟨cs "a@b.com", [], cs "x"⟩, []⟩ (cs "VRFY") =
      (⟨State.ReceivingData ⟨cs "a@b.com", [], cs "x"⟩, []⟩, Except.ok KK)) ∧
    (handle_smtp ⟨State.ReceivingData ⟨cs "a@b.com", [], cs "x"⟩, []⟩ (cs "EXPN") =
      (⟨State.ReceivingData ⟨cs "a@b.com", [], cs "x"⟩, []⟩, Except.ok KK)) ∧
    (handle_smtp ⟨State.ReceivingData ⟨cs "a@b.com", [], cs "x"⟩, []⟩
        (cs "AUTH PLAIN") =
      (⟨State.ReceivingData ⟨cs "a@b.com", [], cs "x"⟩, []⟩, Except.ok AUTH_OK)) ∧
    (handle_smtp ⟨State.ReceivingData ⟨cs "a@b.com", [], cs "x"⟩, []⟩ (cs " ") =
      (⟨State.ReceivingData ⟨cs "a@b.com", [], cs "x"⟩, []⟩,
        Except.error "received empty command")) := by
  decide

/-- C1 (amended): while in `ReceivingData`, every input line that has at least
one whitespace-delimited token and whose first token, lowercased, is none of
`quit`, `noop`, `help`, `info`, `vrfy`, `expn`, `rset`, `auth` is appended raw
and unchanged to the pending mail's `rawBody`, the machine remains in
`ReceivingData`, and the call does not fail. -/
theorem C1_amended_data_append (g : List Char) (m : Mail) (raw tok : List Char)
    (rest : List (List Char)) (ht : splitWS raw = tok :: rest)
    (h : String.mk (toLowerStr tok) ∉
      (["quit", "noop", "help", "info", "vrfy", "expn", "rset", "auth"] :
        List String)) :
    ∃ resp, handle_smtp ⟨State.ReceivingData m, g⟩ raw =
      (⟨State.ReceivingData { m with data := m.data ++ raw }, g⟩,
        Except.ok resp) := by
  refine ⟨_, data_branch_eq g m raw tok rest ht ?_ ?_ ?_ ?_ ?_ ?_ ?_ ?_⟩ <;>
    (intro he; exact h (by simp [he]))

/-- C1 witness: a concrete data line is appended and acknowledged. -/
theorem C1_amended_data_append_witness :
    ∃ resp, handle_smtp ⟨State.ReceivingData ⟨cs "a@b.com", [], cs "x"⟩, []⟩
        (cs "hello world") =
      (⟨State.ReceivingData ⟨cs "a@b.com", [], cs "x" ++ cs "hello world"⟩, []⟩,
        Except.ok resp) :=
  C1_amended_data_append [] ⟨cs "a@b.com", [], cs "x"⟩ (cs "hello world")
    (cs "hello") [cs "world"] (by decide) (by decide)

/-- C2: a line reaching the data-accumulation branch in `ReceivingData` is
acknowledged with `250 Ok\n` iff it ends exactly with the suffix
`"\r\n.\r\n"`; otherwise (in particular when the terminator occurs only as an
interior substring) the withhold (empty) response is returned. -/
theorem C2_terminator (g : List Char) (m : Mail) (raw tok : List Char)
    (rest : List (List Char)) (ht : splitWS raw = tok :: rest)
    (h : String.mk (toLowerStr tok) ∉
      (["quit", "noop", "help", "info", "vrfy", "expn", "rset", "auth"] :
        List String)) :
    ((handle_smtp ⟨State.ReceivingData m, g⟩ raw).2 = Except.ok KK ↔
      cs "\r\n.\r\n" <:+ raw) ∧
    (¬ cs "\r\n.\r\n" <:+ raw →
      (handle_smtp ⟨State.ReceivingData m, g⟩ raw).2 =
        Except.ok HOLD_YOUR_HORSES) := by
  have heq := data_branch_eq g m raw tok rest ht
    (by intro he; exact h (by simp [he])) (by intro he; exact h (by simp [he]))
    (by intro he; exact h (by simp [he])) (by intro he; exact h (by simp [he]))
    (by intro he; exact h (by simp [he])) (by intro he; exact h (by simp [he]))
    (by intro he; exact h (by simp [he])) (by intro he; exact h (by simp [he]))
  rw [heq]
  by_cases hs : cs "\r\n.\r\n" <:+ raw
  · constructor
    · simp [endsWith, hs]
    · intro hc; exact absurd hs hc
  · constructor
    · simp only [endsWith, hs, decide_eq_true_eq]
      constructor
      · intro hc
        exact absurd (by simpa using hc) (by decide : ¬ HOLD_YOUR_HORSES = KK)
      · intro hc; exact hc.elim
    · intro _; simp [endsWith, hs]

/-- C2 witness: a line containing the terminator only as an interior substring
is withheld, while one ending with it is acknowledged. -/
theorem C2_terminator_witness :
    (handle_smtp ⟨State.ReceivingData ⟨cs "a@b.com", [], []⟩, []⟩
        (cs "a\r\n.\r\nb")).2 = Except.ok HOLD_YOUR_HORSES :=
  (C2_terminator [] ⟨cs "a@b.com", [], []⟩ (cs "a\r\n.\r\nb") (cs "a")
    [cs ".", cs "b"] (by decide) (by decide)).2 (by decide)

/-- C3: every `(command, state)` pair not listed in the §4.1 transition table
makes `handle_smtp` fail with a protocol-violation error (and the machine is
left unchanged). -/
theorem C3_unlisted_pairs_fail (st : State) (g raw tok : List Char)
    (rest : List (List Char)) (ht : splitWS raw = tok :: rest)
    (h : ¬ listedPair (String.mk (toLowerStr tok)) st) :
    ∃ e, handle_smtp ⟨st, g⟩ raw = (⟨st, g⟩, Except.error e) :=
  ⟨_, unlisted_errors st g raw tok rest ht h⟩

/-- C3 witness: MAIL in Fresh, RCPT in Greeted, DATA in Fresh and EHLO in
Greeted all return an error. -/
theorem C3_unlisted_pairs_fail_witness :
    (∃ e, handle_smtp ⟨State.Fresh, []⟩ (cs "MAIL FROM: <a@b.com>") =
      (⟨State.Fresh, []⟩, Except.error e)) ∧
    (∃ e, handle_smtp ⟨State.Greeted, []⟩ (cs "RCPT TO: <a@b.com>") =
      (⟨State.Greeted, []⟩, Except.error e)) ∧
    (∃ e, handle_smtp ⟨State.Fresh, []⟩ (cs "DATA") =
      (⟨State.Fresh, []⟩, Except.error e)) ∧
    (∃ e, handle_smtp ⟨State.Greeted, []⟩ (cs "EHLO there") =
      (⟨State.Greeted, []⟩, Except.error e)) :=
  ⟨C3_unlisted_pairs_fail State.Fresh [] (cs "MAIL FROM: <a@b.com>") (cs "MAIL")
      [cs "FROM:", cs "<a@b.com>"] (by decide) (by simp [listedPair]; decide),
    C3_unlisted_pairs_fail State.Greeted [] (cs "RCPT TO: <a@b.com>") (cs "RCPT")
      [cs "TO:", cs "<a@b.com>"] (by decide) (by simp [listedPair]; decide),
    C3_unlisted_pairs_fail State.Fresh [] (cs "DATA") (cs "DATA")
      [] (by decide) (by simp [listedPair]; decide),
    C3_unlisted_pairs_fail State.Greeted [] (cs "EHLO there") (cs "EHLO")
      [cs "there"] (by decide) (by simp [listedPair]; decide)⟩

/-- C4: in `ReceivingRecipients`, a well-formed `RCPT TO:<addr>` line (second
token carrying the `TO:` marker, `addr` the parsed remainder) always returns
OK — an illegal address never causes an error — and the parsed address is
appended to `recipients` iff it passes `legal_recipient`; an illegal address
not already present stays absent from the recipients. -/
theorem C4_rcpt_filtering (g : List Char) (m : Mail) (raw tok t addr : List Char)
    (rest : List (List Char)) (ht : splitWS raw = tok :: t :: rest)
    (hc : String.mk (toLowerStr tok) = "rcpt")
    (hp : stripPfx (cs "TO:") t = some addr) :
    ∃ m', handle_smtp ⟨State.ReceivingRcpt m, g⟩ raw =
        (⟨State.ReceivingRcpt m', g⟩, Except.ok KK) ∧
      (legal_recipient addr = true → m'.to_ = m.to_ ++ [addr]) ∧
      (legal_recipient addr = false → m'.to_ = m.to_) ∧
      (legal_recipient addr = false → addr ∉ m.to_ → addr ∉ m'.to_) := by
  refine ⟨if legal_recipient addr then { m with to_ := m.to_ ++ [addr] } else m,
    ?_, ?_, ?_, ?_⟩
  · simp [handle_smtp, ht, hc, hp]
  · intro hl; simp [hl]
  · intro hl; simp [hl]
  · intro hl hni; simp [hl]; exact hni

/-- C4 witness: `RCPT TO:<admin@site.com>` in `ReceivingRecipients` returns OK
and leaves the recipients unchanged (the parsed address contains `admin`). -/
theorem C4_rcpt_filtering_witness :
    ∃ m', handle_smtp ⟨State.ReceivingRcpt ⟨cs "<a@b.com>", [], []⟩, []⟩
        (cs "RCPT TO:<admin@site.com>") =
        (⟨State.ReceivingRcpt m', []⟩, Except.ok KK) ∧
      (legal_recipient (cs "<admin@site.com>") = true →
        m'.to_ = Mail.to_ ⟨cs "<a@b.com>", [], []⟩ ++ [cs "<admin@site.com>"]) ∧
      (legal_recipient (cs "<admin@site.com>") = false →
        m'.to_ = Mail.to_ ⟨cs "<a@b.com>", [], []⟩) ∧
      (legal_recipient (cs "<admin@site.com>") = false →
        cs "<admin@site.com>" ∉ Mail.to_ ⟨cs "<a@b.com>", [], []⟩ →
        cs "<admin@site.com>" ∉ m'.to_) :=
  C4_rcpt_filtering [] ⟨cs "<a@b.com>", [], []⟩ (cs "RCPT TO:<admin@site.com>")
    (cs "RCPT") (cs "TO:<admin@site.com>") (cs "<admin@site.com>") []
    (by decide) (by decide) (by decide)

/-- C5: `legal_recipient` is a pure function of the address marking it illegal
iff, case-insensitively, it contains `admin`, `postmaster` or `hostmaster`
anywhere; `Admin@x.com` and `POSTmaster@x.com` are illegal, `a@b.com` legal. -/
theorem C5_legal_recipient_spec :
    (∀ addr : List Char, legal_recipient addr = false ↔
      (cs "admin" <:+: toLowerStr addr ∨ cs "postmaster" <:+: toLowerStr addr ∨
        cs "hostmaster" <:+: toLowerStr addr)) ∧
    legal_recipient (cs "Admin@x.com") = false ∧
    legal_recipient (cs "a@b.com") = true ∧
    legal_recipient (cs "POSTmaster@x.com") = false := by
  refine ⟨fun addr => ?_, by decide, by decide, by decide⟩
  simp [legal_recipient, containsStr]
  tauto

/-- C7: an `RSET` command issued in any state transitions the machine to
`Fresh` with the OK response, discarding any in-progress mail. -/
theorem C7_rset_resets (sm : StateMachine) (raw tok : List Char)
    (rest : List (List Char)) (ht : splitWS raw = tok :: rest)
    (hc : String.mk (toLowerStr tok) = "rset") :
    handle_smtp sm raw = (⟨State.Fresh, sm.ehlo_greeting⟩, Except.ok KK) := by
  obtain ⟨st, g⟩ := sm
  simp [handle_smtp, ht, hc]

/-- C7 witness: `RSET` from a mid-data state discards the pending mail. -/
theorem C7_rset_resets_witness :
    handle_smtp ⟨State.ReceivingData ⟨cs "a@b.com", [cs "c@d.com"], cs "body"⟩,
        cs "g"⟩ (cs "RSET") =
      (⟨State.Fresh, cs "g"⟩, Except.ok KK) :=
  C7_rset_resets ⟨State.ReceivingData ⟨cs "a@b.com", [cs "c@d.com"], cs "body"⟩,
    cs "g"⟩ (cs "RSET") (cs "RSET") [] (by decide) (by decide)

/-- C8 counterexample: in `Fresh`, the commands `NOOP`, `HELP`, `INFO`, `VRFY`,
`EXPN`, `RSET`, `AUTH` and `QUIT` — none of which is EHLO or HELO — all
succeed, refuting the claim that any command other than EHLO or HELO fails
in `Fresh`. -/
theorem C8_counterexample :
    (handle_smtp ⟨State.Fresh, []⟩ (cs "NOOP") =
      (⟨State.Fresh, []⟩, Except.ok KK)) ∧
    (handle_smtp ⟨State.Fresh, []⟩ (cs "HELP") =
      (⟨State.Fresh, []⟩, Except.ok KK)) ∧
    (handle_smtp ⟨State.Fresh, []⟩ (cs "INFO") =
      (⟨State.Fresh, []⟩, Except.ok KK)) ∧
    (handle_smtp ⟨State.Fresh, []⟩ (cs "VRFY x") =
      (⟨State.Fresh, []⟩, Except.ok KK)) ∧
    (handle_smtp ⟨State.Fresh, []⟩ (cs "EXPN x") =
      (⟨State.Fresh, []⟩, Except.ok KK)) ∧
    (handle_smtp ⟨State.Fresh, []⟩ (cs "RSET") =
      (⟨State.Fresh, []⟩, Except.ok KK)) ∧
    (handle_smtp ⟨State.Fresh, []⟩ (cs "AUTH PLAIN") =
      (⟨State.Fresh, []⟩, Except.ok AUTH_OK)) ∧
    (handle_smtp ⟨State.Fresh, []⟩ (cs "QUIT") =
      (⟨State.Fresh, []⟩, Except.ok KTHXBYE)) := by
  decide

/-- C8 (amended): in `Fresh`, any command whose lowercased first token is none
of `ehlo`, `helo`, `noop`, `help`, `info`, `vrfy`, `expn`, `rset`, `auth`,
`quit` fails with an error; in particular `MAIL FROM: <a@b.com>` issued before
any greeting returns an error. -/
theorem C8_amended_fresh_rejects (g raw tok : List Char)
    (rest : List (List Char)) (ht : splitWS raw = tok :: rest)
    (h : String.mk (toLowerStr tok) ∉
      (["ehlo", "helo", "noop", "help", "info", "vrfy", "expn", "rset", "auth",
        "quit"] : List String)) :
    ∃ e, handle_smtp ⟨State.Fresh, g⟩ raw = (⟨State.Fresh, g⟩, Except.error e) := by
  refine ⟨_, unlisted_errors State.Fresh g raw tok rest ht ?_⟩
  intro hl
  apply h
  simp [listedPair] at hl
  simp only [List.mem_cons, List.mem_singleton, List.not_mem_nil, or_false]
  tauto

/-- C8 witness: `MAIL FROM: <a@b.com>` before any greeting is an error. -/
theorem C8_amended_fresh_rejects_witness :
    ∃ e, handle_smtp ⟨State.Fresh, []⟩ (cs "MAIL FROM: <a@b.com>") =
      (⟨State.Fresh, []⟩, Except.error e) :=
  C8_amended_fresh_rejects [] (cs "MAIL FROM: <a@b.com>") (cs "MAIL")
    [cs "FROM:", cs "<a@b.com>"] (by decide) (by decide)

/-- C9: the happy-path sequence `HELO x`, `MAIL FROM: <a@b.com>`,
`RCPT TO: <c@d.com>`, `DATA`, `Subject: hi\r\n\r\nbody\r\n.\r\n`, `QUIT`
succeeds at every step and drives the state through `Fresh`, `Greeted`,
`ReceivingRcpt`, `ReceivingData`, `Received` in that order.  (The declared
sender and recipient are the empty string: `split_whitespace` cuts before the
`<...>` token, so `strip_prefix` leaves nothing after `FROM:`/`TO:`.) -/
theorem C9_happy_path :
    handle_smtp ⟨State.Fresh, []⟩ (cs "HELO x") =
      (⟨State.Greeted, []⟩, Except.ok KK) ∧
    handle_smtp ⟨State.Greeted, []⟩ (cs "MAIL FROM: <a@b.com>") =
      (⟨State.ReceivingRcpt ⟨[], [], []⟩, []⟩, Except.ok KK) ∧
    handle_smtp ⟨State.ReceivingRcpt ⟨[], [], []⟩, []⟩ (cs "RCPT TO: <c@d.com>") =
      (⟨State.ReceivingRcpt ⟨[], [[]], []⟩, []⟩, Except.ok KK) ∧
    handle_smtp ⟨State.ReceivingRcpt ⟨[], [[]], []⟩, []⟩ (cs "DATA") =
      (⟨State.ReceivingData ⟨[], [[]], []⟩, []⟩, Except.ok SEND_DATA_PLZ) ∧
    handle_smtp ⟨State.ReceivingData ⟨[], [[]], []⟩, []⟩
        (cs "Subject: hi\r\n\r\nbody\r\n.\r\n") =
      (⟨State.ReceivingData ⟨[], [[]], cs "Subject: hi\r\n\r\nbody\r\n.\r\n"⟩, []⟩,
        Except.ok KK) ∧
    handle_smtp ⟨State.ReceivingData ⟨[], [[]],
        cs "Subject: hi\r\n\r\nbody\r\n.\r\n"⟩, []⟩ (cs "QUIT") =
      (⟨State.Received ⟨[], [[]], cs "Subject: hi\r\n\r\nbody\r\n.\r\n"⟩, []⟩,
        Except.ok KTHXBYE) := by
  decide

/-- The C6 invariant: whenever the state carries a pending mail, every address
in its recipients passes `legal_recipient`. -/
def recipientsLegal : State → Prop
  | State.ReceivingRcpt m => ∀ a ∈ m.to_, legal_recipient a = true
  | State.ReceivingData m => ∀ a ∈ m.to_, legal_recipient a = true
  | State.Received m => ∀ a ∈ m.to_, legal_recipient a = true
  | _ => True

set_option maxHeartbeats 1000000 in
/-- C6: the initial state satisfies the recipients invariant, and every
`handle_smtp` call — from any state satisfying it, hence from every reachable
state — preserves it: states carrying a pending mail only ever hold recipients
that pass `legal_recipient`. -/
theorem C6_recipients_invariant :
    recipientsLegal State.Fresh ∧
    ∀ (sm : StateMachine) (raw : List Char),
      recipientsLegal sm.state → recipientsLegal ((handle_smtp sm raw).1.state) := by
  refine ⟨trivial, ?_⟩
  intro sm raw hinv
  obtain ⟨st, g⟩ := sm
  simp only [handle_smtp]
  split
  · exact hinv
  · cases st <;> (try dsimp only []) <;> (repeat' split) <;>
      first
        | exact trivial
        | exact hinv
        | (intro a ha; exact absurd ha (List.not_mem_nil a))
        | (intro a ha
           rcases List.mem_append.mp ha with h1 | h2
           · exact hinv a h1
           · rw [List.mem_singleton.mp h2]; assumption)

/-- C6 witness: an `RCPT` carrying an illegal address, handled from a state
satisfying the invariant, yields a state still satisfying it. -/
theorem C6_recipients_invariant_witness :
    recipientsLegal ((handle_smtp ⟨State.ReceivingRcpt ⟨cs "<a@b.com>", [], []⟩, []⟩
      (cs "RCPT TO:<admin@site.com>")).1.state) :=
  C6_recipients_invariant.2 ⟨State.ReceivingRcpt ⟨cs "<a@b.com>", [], []⟩, []⟩
    (cs "RCPT TO:<admin@site.com>")
    (by intro a ha; exact absurd ha (List.not_mem_nil a))

set_option maxHeartbeats 1000000 in
/-- C10: `handle_smtp` is atomic on error — whenever it returns an error, the
machine (state and any pending mail inside it) is exactly what it was before
the call. -/
theorem C10_error_atomicity (sm sm' : StateMachine) (raw : List Char) (e : String)
    (h : handle_smtp sm raw = (sm', Except.error e)) : sm' = sm := by
  obtain ⟨st, g⟩ := sm
  simp only [handle_smtp] at h
  split at h
  · exact (congrArg Prod.fst h).symm
  · cases st <;> (try dsimp only [] at h) <;> (repeat' split at h) <;>
      first
        | exact (congrArg Prod.fst h).symm
        | exact Except.noConfusion (congrArg Prod.snd h)

/-- C10 witness: a `DATA` command in `Fresh` errors and the machine is
unchanged. -/
theorem C10_error_atomicity_witness :
    (handle_smtp ⟨State.Fresh, []⟩ (cs "DATA")).1 = ⟨State.Fresh, []⟩ :=
  C10_error_atomicity ⟨State.Fresh, []⟩ ((handle_smtp ⟨State.Fresh, []⟩ (cs "DATA")).1)
    (cs "DATA") "Unexpected message received" (by decide)

